import Mathlib

/-!
Shallow embedding of `httputil/httputil.go` (package `httputil` of tsdrm/goutil).

The Go package wraps `net/http`: it issues requests, copies the response
headers into a plain `map[string]string`, buffers the body, and hands the
body to `formatValue`, which writes it into a caller-supplied out-parameter
through `reflect`. External collaborators (the HTTP transport, the
JSON/XML codecs, the filesystem) are modelled as explicit oracles passed
to each operation, exactly at the points where the Go code calls out to
them; everything the package itself does (control flow, named-return
zero values, header collapsing, `defer` placement, error propagation) is
translated statement by statement from the source.

Bytes are `List Nat`; a Go string is also a byte sequence here.  The
reflection-based out-parameter is modelled with a small heap of typed
cells: `GoVal.ptr a` is a non-nil Go pointer to cell `a`, and an
interface variable is a cell of type `ifaceT` holding any value.
`reflect` panics are modelled by the `Outcome.panic` constructor.
-/

deriving instance DecidableEq for Except

namespace Httputil

/-- Raw bytes, as carried in Go `[]byte` values and request/response bodies. -/
abbrev Bytes := List Nat

/-- The static Go types that appear as out-parameter targets in this package. -/
inductive GoType
  | bytesT
  | stringT
  | ifaceT
  | intT
  deriving DecidableEq, Repr

/-- Runtime Go values of our small universe.  `ptr a` is a non-nil pointer
to heap cell `a`; `nilPtr` a typed nil pointer; `nilIface` a nil
`interface{}` value.  A Go string is a byte sequence. -/
inductive GoVal
  | bytes (b : Bytes)
  | str (s : Bytes)
  | int (n : Int)
  | ptr (a : Nat)
  | nilPtr
  | nilIface
  deriving DecidableEq, Repr

/-- A heap cell: the declared (static) type of the variable and its
current value. -/
structure Cell where
  type : GoType
  val : GoVal
  deriving DecidableEq, Repr

/-- The heap: cell `a` is the `a`-th entry. -/
abbrev Heap := List Cell

/-- Overwrite the value stored in cell `a`, keeping its declared type. -/
def heapSet : Heap → Nat → GoVal → Heap
  | [], _, _ => []
  | c :: t, 0, v => ⟨c.type, v⟩ :: t
  | c :: t, Nat.succ a, v => c :: heapSet t a v

/-- Semantic classification of the `error` values this package produces.
The Go code builds them with `fmt.Errorf`; we keep the distinguishing
data (message or status code) instead of the formatted string. -/
inductive GoError
  | newRequestErr (s : String)
  | transportErr (s : String)
  | readErr (s : String)
  | decodeErr (s : String)
  | encodeErr (s : String)
  | unknownReturnType
  | nonOKStatus (code : Nat)
  | fsErr (s : String)
  deriving DecidableEq, Repr

/-- Result of running a fragment of Go code that may panic. -/
inductive Outcome (α : Type)
  | panic
  | ok (a : α)
  deriving DecidableEq, Repr

/-- The four `ReturnXxx` constants (`iota` block), typed `int` in Go. -/
def ReturnBytes : Int := 0

/-- `ReturnString = 1`. -/
def ReturnString : Int := 1

/-- `ReturnJSON = 2`. -/
def ReturnJSON : Int := 2

/-- `ReturnXML = 3`. -/
def ReturnXML : Int := 3

/-- External JSON/XML codecs (`encoding/json`, `encoding/xml`).  A decoder
is given the raw bytes and the static type of the target variable and
returns the decoded value or an error; an encoder serializes a value. -/
structure Codecs where
  jsonDec : Bytes → GoType → Except String GoVal
  xmlDec : Bytes → GoType → Except String GoVal
  jsonEnc : GoVal → Except String Bytes
  xmlEnc : GoVal → Except String Bytes

/-- `reflect.ValueOf(v).Elem().Set(newVal)`: panics unless `v` is a
non-nil pointer to a live cell whose declared type accepts `newVal`
(the exact type, or an interface variable, which accepts anything).
On success the pointed-to cell is overwritten. -/
def valueElemSet (h : Heap) (v : GoVal) (newVal : GoVal) (newType : GoType) :
    Outcome Heap :=
  match v with
  | .ptr a =>
    match h[a]? with
    | some c =>
      if c.type = newType ∨ c.type = GoType.ifaceT then
        Outcome.ok (heapSet h a newVal)
      else
        Outcome.panic
    | none => Outcome.panic
  | _ => Outcome.panic

/-- `json.Unmarshal` / `xml.Unmarshal` applied to target `v`.  Both fail
with an error (not a panic) when the target is not a non-nil pointer;
both indirect through an interface cell that holds a non-nil pointer and
decode into the pointee; otherwise they decode into the pointed-to cell
according to its declared type. -/
def unmarshalInto (dec : Bytes → GoType → Except String GoVal)
    (raw : Bytes) (v : GoVal) (h : Heap) : Option GoError × Heap :=
  match v with
  | .ptr a =>
    match h[a]? with
    | some c =>
      match c.type, c.val with
      | .ifaceT, .ptr a2 =>
        (match h[a2]? with
         | some c2 =>
           (match dec raw c2.type with
            | .ok w => (none, heapSet h a2 w)
            | .error e => (some (GoError.decodeErr e), h))
         | none => (some (GoError.decodeErr "unmarshal: invalid target"), h))
      | _, _ =>
        (match dec raw c.type with
         | .ok w => (none, heapSet h a w)
         | .error e => (some (GoError.decodeErr e), h))
    | none => (some (GoError.decodeErr "unmarshal target must be a non-nil pointer"), h)
  | _ => (some (GoError.decodeErr "unmarshal target must be a non-nil pointer"), h)

/-- `formatValue(returnType, raw, v)` from the source: a switch on the
return-type constant.  `ReturnBytes`/`ReturnString` assign through
`reflect` (and so can panic), `ReturnJSON`/`ReturnXML` delegate to the
codecs, and any other value hits the `default` branch and returns the
"unknown return type" error with no side effect. -/
def formatValue (codecs : Codecs) (returnType : Int) (raw : Bytes) (v : GoVal)
    (h : Heap) : Outcome (Option GoError × Heap) :=
  if returnType = ReturnBytes then
    match valueElemSet h v (GoVal.bytes raw) GoType.bytesT with
    | .panic => Outcome.panic
    | .ok h2 => Outcome.ok (none, h2)
  else if returnType = ReturnString then
    match valueElemSet h v (GoVal.str raw) GoType.stringT with
    | .panic => Outcome.panic
    | .ok h2 => Outcome.ok (none, h2)
  else if returnType = ReturnJSON then
    Outcome.ok (unmarshalInto codecs.jsonDec raw v h)
  else if returnType = ReturnXML then
    Outcome.ok (unmarshalInto codecs.xmlDec raw v h)
  else
    Outcome.ok (some GoError.unknownReturnType, h)

/-- An outgoing request as handed to the transport: method, URL, the
headers set by the `req.Header.Set` loop, and the optional body. -/
structure GoRequest where
  method : String
  url : String
  header : List (String × String)
  body : Option Bytes
  deriving DecidableEq, Repr

/-- A transport-level response: status code, the header multi-map as the
transport exposes it (`http.Header`, canonical keys, a list of values
per key), and the result of draining the body (`ioutil.ReadAll` for
`Request`, `io.Copy` reads for `Download`). -/
structure Response where
  statusCode : Nat
  header : List (String × List String)
  bodyRead : Except String Bytes
  deriving DecidableEq, Repr

/-- The external HTTP stack: `http.NewRequest` validation and `c.Do`.
The `Client`'s transport configuration (the default instance's
`InsecureSkipVerify` TLS policy included) is absorbed into this oracle,
since the package never reads it back. -/
structure Net where
  newReqErr : String → String → Option String
  send : GoRequest → Except String Response

/-- `req.Header.Set k v`: replace the value for `k` or append it. -/
def setHeader : List (String × String) → String → String → List (String × String)
  | [], k, v => [(k, v)]
  | (k0, v0) :: t, k, v =>
    if k0 = k then (k, v) :: t else (k0, v0) :: setHeader t k v

/-- The `for k, v := range hds { req.Header.Set(k, v) }` loop. -/
def buildHeaders (hds : List (String × String)) : List (String × String) :=
  hds.foldl (fun acc kv => setHeader acc kv.1 kv.2) []

/-- `res.Header.Get k` on the list of values stored for `k`: the first
value, or the empty string when there is none. -/
def headerGet (vs : List String) : String := vs.headD ""

/-- The header-copy loop of `Request`:
`for k := range res.Header { header[k] = res.Header.Get(k) }`. -/
def collapseHeader (hs : List (String × List String)) : List (String × String) :=
  hs.map (fun p => (p.1, headerGet p.2))

/-- What `Client.Request` produces: the three named returns (`code`,
`header`, `err`, zero-valued until assigned), the heap after the decode,
and how many times `res.Body.Close()` ran on this path. -/
structure ReqOut where
  code : Nat
  header : Option (List (String × String))
  err : Option GoError
  heap : Heap
  bodyCloses : Nat
  deriving DecidableEq, Repr

/-- `Client.Request` from the source, statement by statement.  Named
returns start at `code = 0`, `header = nil`, `err = nil`.  The header
map is built right after a successful `Do`; `ReadAll` runs next, and on
a read error the function returns before `defer res.Body.Close()` is
registered, so the body is not closed on that path.  `formatValue` runs
after the deferred close is registered; `code = res.StatusCode` is
assigned only after `formatValue` succeeds. -/
def Client.Request (net : Net) (codecs : Codecs) (method url : String)
    (hds : List (String × String)) (data : Option Bytes)
    (returnType : Int) (v : GoVal) (h : Heap) : Outcome ReqOut :=
  match net.newReqErr method url with
  | some e => Outcome.ok ⟨0, none, some (GoError.newRequestErr e), h, 0⟩
  | none =>
    match net.send ⟨method, url, buildHeaders hds, data⟩ with
    | .error e => Outcome.ok ⟨0, none, some (GoError.transportErr e), h, 0⟩
    | .ok res =>
      let header := collapseHeader res.header
      match res.bodyRead with
      | .error e => Outcome.ok ⟨0, some header, some (GoError.readErr e), h, 0⟩
      | .ok body =>
        match formatValue codecs returnType body v h with
        | .panic => Outcome.panic
        | .ok (some e, h2) => Outcome.ok ⟨0, some header, some e, h2, 1⟩
        | .ok (none, h2) =>
          Outcome.ok ⟨res.statusCode, some header, none, h2, 1⟩

/-- What the status-enforcing convenience methods produce. -/
structure CallOut where
  err : Option GoError
  heap : Heap
  bodyCloses : Nat
  deriving DecidableEq, Repr

/-- `Client.GetWithHeader`: delegate to `Request` with method GET; pass
any error through; otherwise fail unless the code is 200. -/
def Client.GetWithHeader (net : Net) (codecs : Codecs) (url : String)
    (header : List (String × String)) (returnType : Int) (v : GoVal)
    (h : Heap) : Outcome CallOut :=
  match Client.Request net codecs "GET" url header none returnType v h with
  | .panic => Outcome.panic
  | .ok r =>
    match r.err with
    | some e => Outcome.ok ⟨some e, r.heap, r.bodyCloses⟩
    | none =>
      if r.code ≠ 200 then
        Outcome.ok ⟨some (GoError.nonOKStatus r.code), r.heap, r.bodyCloses⟩
      else
        Outcome.ok ⟨none, r.heap, r.bodyCloses⟩

/-- `Client.Get`: `GetWithHeader` with a nil header map. -/
def Client.Get (net : Net) (codecs : Codecs) (url : String)
    (returnType : Int) (v : GoVal) (h : Heap) : Outcome CallOut :=
  Client.GetWithHeader net codecs url [] returnType v h

/-- `Client.PostWithHeader`: delegate to `Request` with method POST; pass
any error through; otherwise fail unless the code is 200. -/
def Client.PostWithHeader (net : Net) (codecs : Codecs) (url : String)
    (header : List (String × String)) (body : Option Bytes)
    (returnType : Int) (v : GoVal) (h : Heap) : Outcome CallOut :=
  match Client.Request net codecs "POST" url header body returnType v h with
  | .panic => Outcome.panic
  | .ok r =>
    match r.err with
    | some e => Outcome.ok ⟨some e, r.heap, r.bodyCloses⟩
    | none =>
      if r.code ≠ 200 then
        Outcome.ok ⟨some (GoError.nonOKStatus r.code), r.heap, r.bodyCloses⟩
      else
        Outcome.ok ⟨none, r.heap, r.bodyCloses⟩

/-- Bytes of a Lean string, for bodies the Go code builds from strings. -/
def strBytes (s : String) : Bytes := s.toList.map Char.toNat

/-- Insert one key/value pair into a key-sorted association list. -/
def insertSorted (p : String × String) :
    List (String × String) → List (String × String)
  | [] => [p]
  | q :: t => if p.1 ≤ q.1 then p :: q :: t else q :: insertSorted p t

/-- Sort an association list by key, as `url.Values.Encode` does. -/
def sortByKey (l : List (String × String)) : List (String × String) :=
  l.foldr insertSorted []

/-- The `url.Values` built by `PostForm` (`values.Set` is last-write-wins
per key) followed by `values.Encode()` (keys sorted, joined with `=` and
`&`; percent-escaping is not modelled, the claims never reach it). -/
def formEncode (form : List (String × String)) : String :=
  let values := form.foldl (fun acc kv => setHeader acc kv.1 kv.2) []
  String.intercalate "&" ((sortByKey values).map (fun p => p.1 ++ "=" ++ p.2))

/-- `Client.PostForm`: URL-encode the form, set the form content type,
delegate to `PostWithHeader`. -/
def Client.PostForm (net : Net) (codecs : Codecs) (url : String)
    (form : List (String × String)) (returnType : Int) (v : GoVal)
    (h : Heap) : Outcome CallOut :=
  Client.PostWithHeader net codecs url
    [("Content-Type", "application/x-www-form-urlencoded")]
    (some (strBytes (formEncode form))) returnType v h

/-- `Client.PostJSON`: `json.Marshal` the body (returning its error
directly on failure, before any network call), set the JSON content
type, delegate to `PostWithHeader`. -/
def Client.PostJSON (net : Net) (codecs : Codecs) (url : String)
    (body : GoVal) (returnType : Int) (v : GoVal) (h : Heap) :
    Outcome CallOut :=
  match codecs.jsonEnc body with
  | .error e => Outcome.ok ⟨some (GoError.encodeErr e), h, 0⟩
  | .ok bys =>
    Client.PostWithHeader net codecs url
      [("Content-Type", "application/json")] (some bys) returnType v h

/-- `Client.PostXML`: as `PostJSON` with the XML codec and content type. -/
def Client.PostXML (net : Net) (codecs : Codecs) (url : String)
    (body : GoVal) (returnType : Int) (v : GoVal) (h : Heap) :
    Outcome CallOut :=
  match codecs.xmlEnc body with
  | .error e => Outcome.ok ⟨some (GoError.encodeErr e), h, 0⟩
  | .ok bys =>
    Client.PostWithHeader net codecs url
      [("Content-Type", "application/xml")] (some bys) returnType v h

/-- The external filesystem as `Download` touches it: can `os.OpenFile`
fail, can a write during `io.Copy` fail, can `buf.Flush` fail. -/
structure Fs where
  openErr : Option String
  writeErr : Option String
  flushErr : Option String

/-- What `Download` produces: the `(int64, error)` pair, whether the file
was created (and truncated), the bytes on disk afterwards, and how many
times the body stream and the file handle were closed on this path. -/
structure DlOut where
  res : Except GoError Nat
  fileCreated : Bool
  fileContents : Bytes
  bodyCloses : Nat
  fileCloses : Nat
  deriving DecidableEq, Repr

/-- `Client.Download` from the source.  `defer f.Close()` is registered
right after a successful open, so the file handle is closed on every
later path; `defer res.Body.Close()` is registered only after `io.Copy`
succeeds, so the body is not closed on the non-200, open-error and
copy-error paths.  `buf.Flush()` is called with its error discarded:
when only the flush fails the call still reports success.  Intermediate
buffer spills during the copy are abstracted (only the post-flush file
contents are observable), so on a dropped flush the model shows an empty
file where the real code leaves the unflushed tail missing. -/
def Client.Download (net : Net) (fs : Fs) (url _savePath : String) : DlOut :=
  match net.newReqErr "GET" url with
  | some e => ⟨.error (GoError.newRequestErr e), false, [], 0, 0⟩
  | none =>
    match net.send ⟨"GET", url, [], none⟩ with
    | .error e => ⟨.error (GoError.transportErr e), false, [], 0, 0⟩
    | .ok res =>
      if res.statusCode ≠ 200 then
        ⟨.error (GoError.nonOKStatus res.statusCode), false, [], 0, 0⟩
      else
        match fs.openErr with
        | some e => ⟨.error (GoError.fsErr e), false, [], 0, 0⟩
        | none =>
          match res.bodyRead with
          | .error e => ⟨.error (GoError.readErr e), true, [], 0, 1⟩
          | .ok body =>
            match fs.writeErr with
            | some e => ⟨.error (GoError.fsErr e), true, [], 0, 1⟩
            | none =>
              match fs.flushErr with
              | some _ => ⟨.ok body.length, true, [], 1, 1⟩
              | none => ⟨.ok body.length, true, body, 1, 1⟩

/-- Package-level `Request`: delegates to the default instance with the
same arguments. -/
def Request (net : Net) (codecs : Codecs) (method url : String)
    (hds : List (String × String)) (data : Option Bytes)
    (returnType : Int) (v : GoVal) (h : Heap) : Outcome ReqOut :=
  Client.Request net codecs method url hds data returnType v h

/-- Package-level `Get`: the source calls `HTTPClient.Get(url, returnType, &v)`
where `v` is the wrapper's own `interface{}` parameter — a fresh local
copy of the caller's argument.  Modelled by allocating a fresh interface
cell holding the argument value and passing a pointer to that cell. -/
def Get (net : Net) (codecs : Codecs) (url : String) (returnType : Int)
    (v : GoVal) (h : Heap) : Outcome CallOut :=
  Client.Get net codecs url returnType (GoVal.ptr h.length)
    (h ++ [⟨GoType.ifaceT, v⟩])

/-- Package-level `GetWithHeader`: passes `&result`, a pointer to the
wrapper's local interface parameter, like `Get`. -/
def GetWithHeader (net : Net) (codecs : Codecs) (url : String)
    (header : List (String × String)) (returnType : Int) (v : GoVal)
    (h : Heap) : Outcome CallOut :=
  Client.GetWithHeader net codecs url header returnType (GoVal.ptr h.length)
    (h ++ [⟨GoType.ifaceT, v⟩])

/-- Package-level `PostForm`: passes `&result` like `Get`. -/
def PostForm (net : Net) (codecs : Codecs) (url : String)
    (form : List (String × String)) (returnType : Int) (v : GoVal)
    (h : Heap) : Outcome CallOut :=
  Client.PostForm net codecs url form returnType (GoVal.ptr h.length)
    (h ++ [⟨GoType.ifaceT, v⟩])

/-- Package-level `PostJSON`: passes `&result` like `Get`. -/
def PostJSON (net : Net) (codecs : Codecs) (url : String) (body : GoVal)
    (returnType : Int) (v : GoVal) (h : Heap) : Outcome CallOut :=
  Client.PostJSON net codecs url body returnType (GoVal.ptr h.length)
    (h ++ [⟨GoType.ifaceT, v⟩])

/-- Package-level `PostXML`: passes `&result` like `Get`. -/
def PostXML (net : Net) (codecs : Codecs) (url : String) (body : GoVal)
    (returnType : Int) (v : GoVal) (h : Heap) : Outcome CallOut :=
  Client.PostXML net codecs url body returnType (GoVal.ptr h.length)
    (h ++ [⟨GoType.ifaceT, v⟩])

/-- Package-level `PostWithHeader`: delegates with the same arguments
(no `&` here in the source). -/
def PostWithHeader (net : Net) (codecs : Codecs) (url : String)
    (header : List (String × String)) (body : Option Bytes)
    (returnType : Int) (v : GoVal) (h : Heap) : Outcome CallOut :=
  Client.PostWithHeader net codecs url header body returnType v h

/-- Package-level `Download`: delegates with the same arguments. -/
def Download (net : Net) (fs : Fs) (url savePath : String) : DlOut :=
  Client.Download net fs url savePath

/-- A test transport that accepts every method/URL and answers every
request with the fixed response `resp`. -/
def constNet (resp : Response) : Net :=
  ⟨fun _ _ => none, fun _ => Except.ok resp⟩

/-- Test codecs: both decoders always fail, both encoders succeed with an
empty payload. -/
def stubCodecs : Codecs :=
  ⟨fun _ _ => Except.error "decode", fun _ _ => Except.error "decode",
   fun _ => Except.ok [], fun _ => Except.ok []⟩

/-- A 200 response with body `b` and no headers. -/
def respOK (b : Bytes) : Response := ⟨200, [], Except.ok b⟩

/-- A 404 response with one header and a one-byte body. -/
def resp404 : Response := ⟨404, [("X-Token", ["yes"])], Except.ok [1]⟩

/-- A 200 response whose body read fails. -/
def respReadErr : Response := ⟨200, [], Except.error "read reset"⟩

/-- A 200 response whose transport header exposes two values for one key. -/
def respMulti : Response := ⟨200, [("X-Multi", ["first", "last"])], Except.ok []⟩

/-- A filesystem on which every operation succeeds. -/
def fsOK : Fs := ⟨none, none, none⟩

/-- A one-cell heap: the caller's `[]byte` variable holding `v`. -/
def heap1 (v : GoVal) : Heap := [⟨GoType.bytesT, v⟩]

/-- `v` is a non-nil pointer to a live variable that a value of type `t`
can be assigned to through `reflect` (the exact type, or an interface
variable). -/
def settableTarget (h : Heap) (v : GoVal) (t : GoType) : Prop :=
  ∃ a c, v = GoVal.ptr a ∧ h[a]? = some c ∧
    (c.type = t ∨ c.type = GoType.ifaceT)

theorem heapSet_get (v : GoVal) : ∀ (h : Heap) (a : Nat) (c : Cell),
    h[a]? = some c → (heapSet h a v)[a]? = some ⟨c.type, v⟩ := by
  intro h
  induction h with
  | nil => intro a c hc; cases a <;> simp at hc
  | cons hd t ih =>
    intro a c hc
    cases a with
    | zero =>
      simp at hc
      subst hc
      simp [heapSet]
    | succ n =>
      simp only [List.getElem?_cons_succ] at hc
      simp only [heapSet, List.getElem?_cons_succ]
      exact ih n c hc

theorem valueElemSet_panic (h : Heap) (v nv : GoVal) (t : GoType)
    (hns : ¬ settableTarget h v t) :
    valueElemSet h v nv t = Outcome.panic := by
  cases v with
  | ptr a =>
    cases hg : h[a]? with
    | none => simp [valueElemSet, hg]
    | some c =>
      have hcond : ¬ (c.type = t ∨ c.type = GoType.ifaceT) :=
        fun hor => hns ⟨a, c, rfl, hg, hor⟩
      simp [valueElemSet, hg, hcond]
  | bytes b => rfl
  | str s => rfl
  | int n => rfl
  | nilPtr => rfl
  | nilIface => rfl

/-- C7: for every byte sequence `raw` (the empty one included), decoding
with kind `ReturnBytes` into a non-nil pointer to a `[]byte` variable
copies `raw` verbatim into the caller's variable and returns no error:
afterwards the variable holds exactly `raw`. -/
theorem formatValue_rawbytes_verbatim (codecs : Codecs) (raw : Bytes)
    (h : Heap) (a : Nat) (old : GoVal)
    (hc : h[a]? = some ⟨GoType.bytesT, old⟩) :
    formatValue codecs ReturnBytes raw (GoVal.ptr a) h =
      Outcome.ok (none, heapSet h a (GoVal.bytes raw)) ∧
    (heapSet h a (GoVal.bytes raw))[a]? =
      some ⟨GoType.bytesT, GoVal.bytes raw⟩ := by
  constructor
  · simp [formatValue, valueElemSet, hc]
  · simpa using heapSet_get (GoVal.bytes raw) h a ⟨GoType.bytesT, old⟩ hc

/-- Witness for C7 at the empty byte sequence. -/
theorem formatValue_rawbytes_verbatim_witness :
    (heap1 (GoVal.bytes [7]))[0]? = some ⟨GoType.bytesT, GoVal.bytes [7]⟩ ∧
    (formatValue stubCodecs ReturnBytes [] (GoVal.ptr 0) (heap1 (GoVal.bytes [7])) =
        Outcome.ok (none, heapSet (heap1 (GoVal.bytes [7])) 0 (GoVal.bytes [])) ∧
      (heapSet (heap1 (GoVal.bytes [7])) 0 (GoVal.bytes []))[0]? =
        some ⟨GoType.bytesT, GoVal.bytes []⟩) :=
  ⟨rfl, formatValue_rawbytes_verbatim stubCodecs [] (heap1 (GoVal.bytes [7])) 0
    (GoVal.bytes [7]) rfl⟩

/-- C8: every return-type value outside the defined set (the Go `int`
constants 0, 1, 2, 3) hits the `default` branch: `formatValue` fails
with the "unknown return type" error and leaves the heap untouched. -/
theorem formatValue_unknown_kind (codecs : Codecs) (returnType : Int)
    (raw : Bytes) (v : GoVal) (h : Heap)
    (hrt : returnType < 0 ∨ 3 < returnType) :
    formatValue codecs returnType raw v h =
      Outcome.ok (some GoError.unknownReturnType, h) := by
  have h0 : ¬ returnType = ReturnBytes := by
    show ¬ returnType = (0 : Int); cases hrt <;> omega
  have h1 : ¬ returnType = ReturnString := by
    show ¬ returnType = (1 : Int); cases hrt <;> omega
  have h2 : ¬ returnType = ReturnJSON := by
    show ¬ returnType = (2 : Int); cases hrt <;> omega
  have h3 : ¬ returnType = ReturnXML := by
    show ¬ returnType = (3 : Int); cases hrt <;> omega
  simp [formatValue, h0, h1, h2, h3]

/-- Witness for C8 at return type 7. -/
theorem formatValue_unknown_kind_witness :
    ((7 : Int) < 0 ∨ (3 : Int) < 7) ∧
    formatValue stubCodecs 7 [1] GoVal.nilIface [] =
      Outcome.ok (some GoError.unknownReturnType, []) :=
  ⟨Or.inr (by decide),
   formatValue_unknown_kind stubCodecs 7 [1] GoVal.nilIface [] (Or.inr (by decide))⟩

/-- C10: for the `ReturnBytes` and `ReturnString` kinds the settability
of the out-reference is never checked: whenever the target is not a
non-nil pointer to a compatible live variable, `formatValue` panics
(through `reflect.Value.Elem`/`Set`) instead of returning an error. -/
theorem formatValue_bad_target_panics (codecs : Codecs) (raw : Bytes)
    (v : GoVal) (h : Heap) :
    (¬ settableTarget h v GoType.bytesT →
      formatValue codecs ReturnBytes raw v h = Outcome.panic) ∧
    (¬ settableTarget h v GoType.stringT →
      formatValue codecs ReturnString raw v h = Outcome.panic) := by
  constructor
  · intro hns
    simp [formatValue, valueElemSet_panic h v (GoVal.bytes raw) GoType.bytesT hns]
  · intro hns
    simp [formatValue, ReturnString, ReturnBytes,
      valueElemSet_panic h v (GoVal.str raw) GoType.stringT hns]

/-- Witness for C10: a nil pointer target makes `ReturnBytes` decoding
panic. -/
theorem formatValue_bad_target_panics_witness :
    (¬ settableTarget [] GoVal.nilPtr GoType.bytesT) ∧
    formatValue stubCodecs ReturnBytes [1] GoVal.nilPtr [] = Outcome.panic := by
  have hns : ¬ settableTarget [] GoVal.nilPtr GoType.bytesT := by
    rintro ⟨a, c, hv, hg, hor⟩
    cases hv
  exact ⟨hns, (formatValue_bad_target_panics stubCodecs [1] GoVal.nilPtr []).1 hns⟩

theorem request_ok (net : Net) (codecs : Codecs) (method url : String)
    (hds : List (String × String)) (data : Option Bytes) (returnType : Int)
    (v : GoVal) (hp : Heap) (resp : Response) (b : Bytes) (h2 : Heap)
    (hnr : net.newReqErr method url = none)
    (hsend : net.send ⟨method, url, buildHeaders hds, data⟩ = Except.ok resp)
    (hbody : resp.bodyRead = Except.ok b)
    (hfv : formatValue codecs returnType b v hp = Outcome.ok (none, h2)) :
    Client.Request net codecs method url hds data returnType v hp =
      Outcome.ok ⟨resp.statusCode, some (collapseHeader resp.header), none, h2, 1⟩ := by
  simp [Client.Request, hnr, hsend, hbody, hfv]

theorem getWithHeader_nonok (net : Net) (codecs : Codecs) (url : String)
    (hds : List (String × String)) (returnType : Int) (v : GoVal) (hp : Heap)
    (resp : Response) (b : Bytes) (h2 : Heap)
    (hnr : net.newReqErr "GET" url = none)
    (hsend : net.send ⟨"GET", url, buildHeaders hds, none⟩ = Except.ok resp)
    (hbody : resp.bodyRead = Except.ok b)
    (hc : resp.statusCode ≠ 200)
    (hfv : formatValue codecs returnType b v hp = Outcome.ok (none, h2)) :
    Client.GetWithHeader net codecs url hds returnType v hp =
      Outcome.ok ⟨some (GoError.nonOKStatus resp.statusCode), h2, 1⟩ := by
  unfold Client.GetWithHeader
  rw [request_ok net codecs "GET" url hds none returnType v hp resp b h2
    hnr hsend hbody hfv]
  simp [hc]

theorem postWithHeader_nonok (net : Net) (codecs : Codecs) (url : String)
    (hds : List (String × String)) (data : Option Bytes) (returnType : Int)
    (v : GoVal) (hp : Heap) (resp : Response) (b : Bytes) (h2 : Heap)
    (hnr : net.newReqErr "POST" url = none)
    (hsend : net.send ⟨"POST", url, buildHeaders hds, data⟩ = Except.ok resp)
    (hbody : resp.bodyRead = Except.ok b)
    (hc : resp.statusCode ≠ 200)
    (hfv : formatValue codecs returnType b v hp = Outcome.ok (none, h2)) :
    Client.PostWithHeader net codecs url hds data returnType v hp =
      Outcome.ok ⟨some (GoError.nonOKStatus resp.statusCode), h2, 1⟩ := by
  unfold Client.PostWithHeader
  rw [request_ok net codecs "POST" url hds data returnType v hp resp b h2
    hnr hsend hbody hfv]
  simp [hc]

/-- C1 (amended): the response headers are captured before the decode is
attempted, but the status-code named return is assigned only after a
successful decode; so when decode fails, `Request` surfaces the decode
error together with a zero status code and the already-captured header
map — not the status code observed from the transport. -/
theorem request_decode_error_zero_code (net : Net) (codecs : Codecs)
    (method url : String) (hds : List (String × String)) (data : Option Bytes)
    (returnType : Int) (v : GoVal) (hp : Heap) (resp : Response) (b : Bytes)
    (e : GoError) (h2 : Heap)
    (hnr : net.newReqErr method url = none)
    (hsend : net.send ⟨method, url, buildHeaders hds, data⟩ = Except.ok resp)
    (hbody : resp.bodyRead = Except.ok b)
    (hfv : formatValue codecs returnType b v hp = Outcome.ok (some e, h2)) :
    Client.Request net codecs method url hds data returnType v hp =
      Outcome.ok ⟨0, some (collapseHeader resp.header), some e, h2, 1⟩ := by
  simp [Client.Request, hnr, hsend, hbody, hfv]

/-- Witness for the amended C1: a 404 response whose body fails JSON
decoding makes `Request` return the decode error with status code 0. -/
theorem request_decode_error_zero_code_witness :
    resp404.bodyRead = Except.ok [1] ∧
    Client.Request (constNet resp404) stubCodecs "GET" "u" [] none ReturnJSON
        (GoVal.ptr 0) (heap1 (GoVal.bytes [])) =
      Outcome.ok ⟨0, some (collapseHeader resp404.header),
        some (GoError.decodeErr "decode"), heap1 (GoVal.bytes []), 1⟩ :=
  ⟨rfl, request_decode_error_zero_code (constNet resp404) stubCodecs "GET" "u"
    [] none ReturnJSON (GoVal.ptr 0) (heap1 (GoVal.bytes [])) resp404 [1]
    (GoError.decodeErr "decode") (heap1 (GoVal.bytes [])) rfl rfl rfl rfl⟩

/-- C1 counterexample: against a transport reporting status 404 whose
body fails to decode, `Request` returns status code 0, not the observed
(non-zero) 404 that the claim promises. -/
theorem request_decode_error_counterexample :
    Client.Request (constNet resp404) stubCodecs "GET" "u" [] none ReturnJSON
        (GoVal.ptr 0) (heap1 (GoVal.bytes [])) =
      Outcome.ok ⟨0, some [("X-Token", "yes")],
        some (GoError.decodeErr "decode"), heap1 (GoVal.bytes []), 1⟩ ∧
    resp404.statusCode = 404 ∧ (0 : Nat) ≠ 404 :=
  ⟨rfl, rfl, by decide⟩

/-- C6 (amended): whenever the exchange and the body read succeed and
decode does not panic, the header mapping returned by `Request` has
exactly one value per key, contains every header name the transport
reported (with the transport's casing), and when the transport exposes
several values for a key it holds the first one (first-value-wins,
through `res.Header.Get`). -/
theorem request_header_first_value (net : Net) (codecs : Codecs)
    (method url : String) (hds : List (String × String)) (data : Option Bytes)
    (returnType : Int) (v : GoVal) (hp : Heap) (resp : Response) (b : Bytes)
    (oe : Option GoError) (h2 : Heap)
    (hnr : net.newReqErr method url = none)
    (hsend : net.send ⟨method, url, buildHeaders hds, data⟩ = Except.ok resp)
    (hbody : resp.bodyRead = Except.ok b)
    (hfv : formatValue codecs returnType b v hp = Outcome.ok (oe, h2)) :
    Client.Request net codecs method url hds data returnType v hp =
      Outcome.ok ⟨(match oe with | some _ => 0 | none => resp.statusCode),
        some (resp.header.map (fun p => (p.1, p.2.headD ""))), oe, h2, 1⟩ := by
  cases oe with
  | some e =>
    simp [Client.Request, hnr, hsend, hbody, hfv, collapseHeader, headerGet]
  | none =>
    simp [Client.Request, hnr, hsend, hbody, hfv, collapseHeader, headerGet]

/-- Witness for the amended C6 on a response with a two-valued header. -/
theorem request_header_first_value_witness :
    respMulti.bodyRead = Except.ok [] ∧
    Client.Request (constNet respMulti) stubCodecs "GET" "u" [] none
        ReturnBytes (GoVal.ptr 0) (heap1 (GoVal.bytes [9])) =
      Outcome.ok ⟨200, some [("X-Multi", "first")], none,
        heap1 (GoVal.bytes []), 1⟩ :=
  ⟨rfl, request_header_first_value (constNet respMulti) stubCodecs "GET" "u"
    [] none ReturnBytes (GoVal.ptr 0) (heap1 (GoVal.bytes [9])) respMulti []
    none (heap1 (GoVal.bytes [])) rfl rfl rfl rfl⟩

/-- C6 counterexample: the transport exposes values `["first", "last"]`
for `X-Multi`, and the mapping returned by `Request` holds `"first"`,
not the last value `"last"` the claim promises. -/
theorem request_header_last_value_counterexample :
    Client.Request (constNet respMulti) stubCodecs "GET" "u" [] none
        ReturnBytes (GoVal.ptr 0) (heap1 (GoVal.bytes [9])) =
      Outcome.ok ⟨200, some [("X-Multi", "first")], none,
        heap1 (GoVal.bytes []), 1⟩ ∧
    respMulti.header = [("X-Multi", ["first", "last"])] ∧
    ("first" : String) ≠ "last" :=
  ⟨rfl, rfl, by decide⟩

/-- C2 (amended): when an exchange completes with a status code other
than 200 and the body is read and decoded successfully, each of `Get`,
`GetWithHeader`, `PostForm`, `PostJSON`, `PostXML` and `PostWithHeader`
fails with the non-OK-status error carrying the observed code,
regardless of the body's content; when decoding fails, the decode error
is surfaced instead (see the counterexample). -/
theorem nonok_status_error (net : Net) (codecs : Codecs) (resp : Response)
    (b : Bytes) (c : Nat) (url : String) (hds form : List (String × String))
    (jb xb : GoVal) (ebs exs b0 : Bytes) (returnType : Int) (v : GoVal)
    (hp h2 : Heap)
    (hnr : ∀ m u, net.newReqErr m u = none)
    (hsend : ∀ r, net.send r = Except.ok resp)
    (hbody : resp.bodyRead = Except.ok b)
    (hcode : resp.statusCode = c) (hc : c ≠ 200)
    (hfv : formatValue codecs returnType b v hp = Outcome.ok (none, h2))
    (hje : codecs.jsonEnc jb = Except.ok ebs)
    (hxe : codecs.xmlEnc xb = Except.ok exs) :
    Client.Get net codecs url returnType v hp =
      Outcome.ok ⟨some (GoError.nonOKStatus c), h2, 1⟩ ∧
    Client.GetWithHeader net codecs url hds returnType v hp =
      Outcome.ok ⟨some (GoError.nonOKStatus c), h2, 1⟩ ∧
    Client.PostForm net codecs url form returnType v hp =
      Outcome.ok ⟨some (GoError.nonOKStatus c), h2, 1⟩ ∧
    Client.PostJSON net codecs url jb returnType v hp =
      Outcome.ok ⟨some (GoError.nonOKStatus c), h2, 1⟩ ∧
    Client.PostXML net codecs url xb returnType v hp =
      Outcome.ok ⟨some (GoError.nonOKStatus c), h2, 1⟩ ∧
    Client.PostWithHeader net codecs url hds (some b0) returnType v hp =
      Outcome.ok ⟨some (GoError.nonOKStatus c), h2, 1⟩ := by
  subst hcode
  refine ⟨?_, ?_, ?_, ?_, ?_, ?_⟩
  · exact getWithHeader_nonok net codecs url [] returnType v hp resp b h2
      (hnr _ _) (hsend _) hbody hc hfv
  · exact getWithHeader_nonok net codecs url hds returnType v hp resp b h2
      (hnr _ _) (hsend _) hbody hc hfv
  · exact postWithHeader_nonok net codecs url
      [("Content-Type", "application/x-www-form-urlencoded")]
      (some (strBytes (formEncode form))) returnType v hp resp b h2
      (hnr _ _) (hsend _) hbody hc hfv
  · unfold Client.PostJSON
    rw [hje]
    exact postWithHeader_nonok net codecs url
      [("Content-Type", "application/json")] (some ebs) returnType v hp
      resp b h2 (hnr _ _) (hsend _) hbody hc hfv
  · unfold Client.PostXML
    rw [hxe]
    exact postWithHeader_nonok net codecs url
      [("Content-Type", "application/xml")] (some exs) returnType v hp
      resp b h2 (hnr _ _) (hsend _) hbody hc hfv
  · exact postWithHeader_nonok net codecs url hds (some b0) returnType v hp
      resp b h2 (hnr _ _) (hsend _) hbody hc hfv

/-- Witness for the amended C2 against a 404 endpoint with decode
succeeding (`ReturnBytes` into a valid `[]byte` target). -/
theorem nonok_status_error_witness :
    ((404 : Nat) ≠ 200) ∧
    (Client.Get (constNet resp404) stubCodecs "u" ReturnBytes (GoVal.ptr 0)
        (heap1 (GoVal.bytes [7])) =
      Outcome.ok ⟨some (GoError.nonOKStatus 404), heap1 (GoVal.bytes [1]), 1⟩ ∧
    Client.GetWithHeader (constNet resp404) stubCodecs "u" [("A", "b")]
        ReturnBytes (GoVal.ptr 0) (heap1 (GoVal.bytes [7])) =
      Outcome.ok ⟨some (GoError.nonOKStatus 404), heap1 (GoVal.bytes [1]), 1⟩ ∧
    Client.PostForm (constNet resp404) stubCodecs "u" [] ReturnBytes
        (GoVal.ptr 0) (heap1 (GoVal.bytes [7])) =
      Outcome.ok ⟨some (GoError.nonOKStatus 404), heap1 (GoVal.bytes [1]), 1⟩ ∧
    Client.PostJSON (constNet resp404) stubCodecs "u" GoVal.nilIface
        ReturnBytes (GoVal.ptr 0) (heap1 (GoVal.bytes [7])) =
      Outcome.ok ⟨some (GoError.nonOKStatus 404), heap1 (GoVal.bytes [1]), 1⟩ ∧
    Client.PostXML (constNet resp404) stubCodecs "u" GoVal.nilIface
        ReturnBytes (GoVal.ptr 0) (heap1 (GoVal.bytes [7])) =
      Outcome.ok ⟨some (GoError.nonOKStatus 404), heap1 (GoVal.bytes [1]), 1⟩ ∧
    Client.PostWithHeader (constNet resp404) stubCodecs "u" [("A", "b")]
        (some [5]) ReturnBytes (GoVal.ptr 0) (heap1 (GoVal.bytes [7])) =
      Outcome.ok ⟨some (GoError.nonOKStatus 404), heap1 (GoVal.bytes [1]), 1⟩) :=
  ⟨by decide,
   nonok_status_error (constNet resp404) stubCodecs resp404 [1] 404 "u"
    [("A", "b")] [] GoVal.nilIface GoVal.nilIface [] [] [5] ReturnBytes
    (GoVal.ptr 0) (heap1 (GoVal.bytes [7])) (heap1 (GoVal.bytes [1]))
    (fun _ _ => rfl) (fun _ => rfl) rfl rfl (by decide) rfl rfl rfl⟩

/-- C2 counterexample: against a 404 endpoint whose body fails to
decode, `Get` surfaces the decode error, not a non-OK-status error
carrying 404 as the claim promises for every such exchange. -/
theorem nonok_decode_failure_counterexample :
    Client.Get (constNet resp404) stubCodecs "u" ReturnJSON (GoVal.ptr 0)
        (heap1 (GoVal.bytes [])) =
      Outcome.ok ⟨some (GoError.decodeErr "decode"), heap1 (GoVal.bytes []), 1⟩ ∧
    GoError.decodeErr "decode" ≠ GoError.nonOKStatus 404 :=
  ⟨rfl, by decide⟩

/-- C3 (code-bug evidence): the body stream is not released on several
exit paths.  In `Download`, `defer res.Body.Close()` is only registered
after `io.Copy` succeeds, so the non-200, open-error and write-error
paths return with zero closes of the body; in `Request`,
`defer res.Body.Close()` is only registered after `ioutil.ReadAll`
succeeds, so a body-read error path also returns with zero closes. -/
theorem body_not_closed_on_error_paths :
    (Client.Download (constNet resp404) fsOK "u" "p").bodyCloses = 0 ∧
    (Client.Download (constNet (respOK [1])) ⟨some "open denied", none, none⟩
      "u" "p").bodyCloses = 0 ∧
    (Client.Download (constNet (respOK [1])) ⟨none, some "write failed", none⟩
      "u" "p").bodyCloses = 0 ∧
    Client.Request (constNet respReadErr) stubCodecs "GET" "u" [] none
        ReturnBytes (GoVal.ptr 0) (heap1 (GoVal.bytes [])) =
      Outcome.ok ⟨0, some [], some (GoError.readErr "read reset"),
        heap1 (GoVal.bytes []), 0⟩ :=
  ⟨rfl, rfl, rfl, rfl⟩

/-- C4 (code-bug evidence): with the same arguments and a `RawBytes`
target, the method on the default instance writes the body into the
caller's variable (cell 0), while the package-level `Get` — which passes
`&v`, a pointer to its own local `interface{}` parameter — writes the
body into the fresh local cell and leaves the caller's variable
unchanged. -/
theorem package_get_drops_output :
    Client.Get (constNet (respOK [1, 2])) stubCodecs "u" ReturnBytes
        (GoVal.ptr 0) (heap1 (GoVal.bytes [])) =
      Outcome.ok ⟨none, [⟨GoType.bytesT, GoVal.bytes [1, 2]⟩], 1⟩ ∧
    Get (constNet (respOK [1, 2])) stubCodecs "u" ReturnBytes
        (GoVal.ptr 0) (heap1 (GoVal.bytes [])) =
      Outcome.ok ⟨none, [⟨GoType.bytesT, GoVal.bytes []⟩,
        ⟨GoType.ifaceT, GoVal.bytes [1, 2]⟩], 1⟩ ∧
    GoVal.bytes ([] : Bytes) ≠ GoVal.bytes [1, 2] :=
  ⟨rfl, rfl, by decide⟩

/-- C5 (code-bug evidence): `Download` calls `buf.Flush()` and discards
its error: when only the flush fails, the call still reports success
with the full byte count, even though the buffered bytes never reached
the file. -/
theorem download_flush_error_swallowed :
    Client.Download (constNet (respOK [1, 2, 3])) ⟨none, none, some "disk full"⟩
        "u" "p" =
      ⟨Except.ok 3, true, [], 1, 1⟩ :=
  rfl

/-- C9: against a 200 endpoint with a known `N`-byte body and a
cooperating filesystem, `Download` writes exactly the body to the target
file and returns its length with no error (and releases both the body
stream and the file handle once). -/
theorem download_writes_n_bytes (net : Net) (url p : String)
    (resp : Response) (b : Bytes)
    (hnr : net.newReqErr "GET" url = none)
    (hsend : net.send ⟨"GET", url, [], none⟩ = Except.ok resp)
    (hcode : resp.statusCode = 200)
    (hbody : resp.bodyRead = Except.ok b) :
    Client.Download net fsOK url p = ⟨Except.ok b.length, true, b, 1, 1⟩ := by
  simp [Client.Download, hnr, hsend, hcode, hbody, fsOK]

/-- Witness for C9 with a four-byte body. -/
theorem download_writes_n_bytes_witness :
    (respOK [1, 2, 3, 4]).statusCode = 200 ∧
    Client.Download (constNet (respOK [1, 2, 3, 4])) fsOK "u" "p" =
      ⟨Except.ok 4, true, [1, 2, 3, 4], 1, 1⟩ :=
  ⟨rfl, download_writes_n_bytes (constNet (respOK [1, 2, 3, 4])) "u" "p"
    (respOK [1, 2, 3, 4]) [1, 2, 3, 4] rfl rfl rfl rfl⟩

end Httputil
